import Mathlib

/-!
Verification of the NeuroFlow heart-rate pipeline
(`backend/routes/heart_rate_data.py`).

Numeric model: Python/NumPy floats are modelled as exact rationals (`ℚ`);
the square roots taken by `np.std` and the RMSSD formula land in `ℝ` via
`Real.sqrt`.  NumPy's NaN (the mean of an empty slice) is modelled as
`none : Option ℝ`.  Python exceptions are modelled with `Except String`:
`Except.error` means an exception escapes the modelled function.
-/

/-- Message of the `ValueError` raised by `min(averaged)` on an empty sequence. -/
def errMinEmpty : String := "ValueError: min() arg is an empty sequence"

/-- Message of the `ZeroDivisionError` raised by `nn50 / len(rr_intervals_ms)`. -/
def errZeroDiv : String := "ZeroDivisionError: division by zero"

/-- Message of the `ZeroDivisionError` raised by `1.0 / fps` when `fps` is zero. -/
def errFloatDivZero : String := "ZeroDivisionError: float division by zero"

/-- Message of the `IndexError` raised by `peak_indices[-1]` on an empty array. -/
def errIndexEmpty : String := "IndexError: index -1 is out of bounds for axis 0 with size 0"

/-- Message of the `IndexError` raised by fancy assignment with an out-of-range index. -/
def errIndexAssign : String := "IndexError: index out of bounds"

/-- Message of the `ValueError` raised by `scipy.signal.filtfilt` on a short signal. -/
def errPadlen : String := "ValueError: The length of the input vector x must be greater than padlen"

/-- Failure message returned when the video source cannot be opened (line 113). -/
def msgNotOpened : String := "Video file could not be opened. Please check the path."

/-- Failure message returned when the reported frame count is zero (line 120). -/
def msgNoFrames : String := "Video contains no frames."

/-- Python builtin `min` folded over a list; the `[]` case is junk (the source
raises `ValueError` there, which the callers model explicitly). -/
def list_min : List ℚ → ℚ
  | [] => 0
  | x :: xs => xs.foldl min x

/-- Python builtin `max` folded over a list; the `[]` case is junk. -/
def list_max : List ℚ → ℚ
  | [] => 0
  | x :: xs => xs.foldl max x

/-- NumPy `np.mean`; `none` models the NaN produced on an empty array. -/
def np_mean (l : List ℚ) : Option ℚ :=
  if l.length = 0 then none else some (l.sum / l.length)

/-- NumPy `np.diff`: successive differences `l[i+1] - l[i]`, length one less. -/
def np_diff (l : List ℚ) : List ℚ := List.zipWith (fun a b => a - b) l.tail l

/-- NumPy `np.std` with default `ddof=0`: the population standard deviation
`sqrt(mean(abs(x - x.mean())**2))`; `none` models the NaN on an empty array. -/
noncomputable def np_std (l : List ℚ) : Option ℝ :=
  (np_mean l).bind fun mu =>
    (np_mean (l.map fun x => (x - mu) ^ 2)).map fun v : ℚ => Real.sqrt (v : ℝ)

/-- The dictionary returned by `calculate_hrv` (lines 56-63); `none` models NaN. -/
structure HRVMetrics where
  sdnn : Option ℝ
  rmssd : Option ℝ
  pnn50 : ℚ

/-- Source `calculate_hrv` (lines 56-63): convert the RR intervals to
milliseconds, take `np.std`, the root mean square of successive differences,
and the percentage of absolute successive differences above 50 ms.  The final
`nn50 / len(rr_intervals_ms)` is Python integer division of two ints and
raises `ZeroDivisionError` on an empty series. -/
noncomputable def calculate_hrv (rr : List ℚ) : Except String HRVMetrics :=
  let rr_ms := rr.map fun x => x * 1000
  let sdnn := np_std rr_ms
  let rmssd := (np_mean ((np_diff rr_ms).map fun d => d ^ 2)).map fun m : ℚ => Real.sqrt (m : ℝ)
  let nn50 := ((np_diff rr_ms).filter fun d => decide (50 < |d|)).length
  if rr_ms.length = 0 then Except.error errZeroDiv
  else Except.ok ⟨sdnn, rmssd, ((nn50 : ℚ) / (rr_ms.length : ℚ)) * 100⟩

/-- The external HRV-analysis capability: NeuroKit2's `nk.hrv` composed with
the lookup `hrv_metrics.get("HRV_SI", None)` (lines 73-74).  It receives the
binary pulse train and the sampling rate; it may raise (`Except.error`) or
return no usable metric (`Except.ok none`). -/
def StressCap : Type := List ℚ → ℤ → Except String (Option ℚ)

/-- Source `calculate_stress_score` (lines 66-75): build a binary array of
size `peak_indices[-1] + 1` with ones at the peak positions and hand it to the
external capability.  `peak_indices[-1]` raises `IndexError` on an empty
array, as does the fancy assignment if an index exceeds the array size. -/
def calculate_stress_score (cap : StressCap) (peak_indices : List ℕ) (sampling_rate : ℤ) :
    Except String (Option ℚ) :=
  match peak_indices.getLast? with
  | none => Except.error errIndexEmpty
  | some last =>
    if peak_indices.all fun p => decide (p ≤ last) then
      let binary_peaks := (List.range (last + 1)).map fun i =>
        if i ∈ peak_indices then (1 : ℚ) else 0
      cap binary_peaks sampling_rate
    else Except.error errIndexAssign

/-- Inner loop of scipy's `_local_maxima_1d`: from position `j`, advance while
`j < len(x) - 1` and `x[j]` still equals the plateau value `v`.  Fuel makes the
recursion structural; fuel `x.length` always suffices. -/
def plateau_end (x : List ℚ) (v : ℚ) : ℕ → ℕ → ℕ
  | 0, j => j
  | fuel + 1, j =>
    if j + 1 < x.length ∧ x.getD j 0 = v then plateau_end x v fuel (j + 1) else j

/-- Outer loop of scipy's `_local_maxima_1d` (used by `scipy.signal.find_peaks`):
scan `1 ≤ i < len(x) - 1`; where `x[i-1] < x[i]`, find the end of the plateau of
value `x[i]`; if the sample after the plateau is strictly smaller, emit the
plateau midpoint and resume after the plateau. -/
def local_maxima_from (x : List ℚ) : ℕ → ℕ → List ℕ
  | 0, _ => []
  | fuel + 1, i =>
    if i + 1 < x.length then
      if x.getD (i - 1) 0 < x.getD i 0 then
        let ia := plateau_end x (x.getD i 0) x.length (i + 1)
        if x.getD ia 0 < x.getD i 0 then
          (i + ia - 1) / 2 :: local_maxima_from x fuel (ia + 1)
        else
          local_maxima_from x fuel (i + 1)
      else
        local_maxima_from x fuel (i + 1)
    else
      []

/-- All scipy local maxima of a signal. -/
def local_maxima (x : List ℚ) : List ℕ := local_maxima_from x x.length 1

/-- Scipy `find_peaks(x, height=h)[0]`: local maxima whose value is at least
`h` (scipy keeps a peak when `hmin <= peak_height`). -/
def find_peaks_h (x : List ℚ) (h : ℚ) : List ℕ :=
  (local_maxima x).filter fun p => decide (h ≤ x.getD p 0)

/-- Line 79: the adaptive threshold `min(averaged) + (max(averaged) - min(averaged)) / 16`. -/
def r_min_peak (x : List ℚ) : ℚ := list_min x + (list_max x - list_min x) / 16

/-- Lines 79-80: the whole peak detector, `find_peaks(averaged, height=r_min_peak)[0]`. -/
def peak_detector (x : List ℚ) : List ℕ := find_peaks_h x (r_min_peak x)

/-- Spec-side peak definition (spec section 4.4): the indices that are strict
local maxima, greater than both neighbours, with value at or above the
threshold, listed in ascending index order. -/
def strict_peaks_spec (x : List ℚ) (h : ℚ) : List ℕ :=
  (List.range x.length).filter fun i =>
    decide (0 < i ∧ i + 1 < x.length ∧ x.getD (i - 1) 0 < x.getD i 0 ∧
      x.getD (i + 1) 0 < x.getD i 0 ∧ h ≤ x.getD i 0)

/-- Lines 88-91: the RR interval list
`[(r_peaks[0][i+1] - r_peaks[0][i]) * time_bw_fram for i in range(total_peaks - 1)]`. -/
def rr_intervals_of (peaks : List ℕ) (time_bw_fram : ℚ) : List ℚ :=
  (List.range (peaks.length - 1)).map fun i =>
    ((peaks.getD (i + 1) 0 : ℚ) - (peaks.getD i 0 : ℚ)) * time_bw_fram

/-- Lines 93-94: `float(60.0 / np.mean(rr_intervals))` for a non-empty list. -/
def bpm_of (rr : List ℚ) : ℚ := 60 / (rr.sum / rr.length)

/-- The dictionary returned by `give_bpm_and_hrv`. -/
structure BpmResult where
  bpm : ℚ
  hrv : HRVMetrics
  stress : Option ℚ

/-- Python `int()` truncation toward zero, applied to `1 / time_bw_fram`. -/
def py_int (q : ℚ) : ℤ := if 0 ≤ q then ⌊q⌋ else -⌊-q⌋

/-- Source `give_bpm_and_hrv` (lines 78-106): `min(averaged)` raises on an
empty signal; with at most one detected peak the degenerate zeroed dictionary
is returned; otherwise RR intervals, BPM, the HRV metrics and the stress score
are computed (an exception from `calculate_stress_score` is not caught). -/
noncomputable def give_bpm_and_hrv (cap : StressCap) (averaged : List ℚ)
    (time_bw_fram : ℚ) : Except String BpmResult :=
  if averaged = [] then Except.error errMinEmpty
  else
    let peaks := peak_detector averaged
    if peaks.length ≤ 1 then Except.ok ⟨0, ⟨some 0, some 0, 0⟩, none⟩
    else do
      let rr := rr_intervals_of peaks time_bw_fram
      let hrv ← calculate_hrv rr
      let stress ← calculate_stress_score cap peaks (py_int (1 / time_bw_fram))
      Except.ok ⟨bpm_of rr, hrv, stress⟩

/-- One step chain of scipy `lfilter` (direct form II transposed), state `z` of
length `K`: `y = b[0] x + z[0]` and `z[i] := b[i+1] x + z[i+1] - a[i+1] y`. -/
def lfilter_from (b a : List ℚ) (K : ℕ) : List ℚ → List ℚ → List ℚ
  | _, [] => []
  | z, xn :: xs =>
    let y := b.getD 0 0 * xn + z.getD 0 0
    let z2 := (List.range K).map fun i =>
      b.getD (i + 1) 0 * xn + z.getD (i + 1) 0 - a.getD (i + 1) 0 * y
    y :: lfilter_from b a K z2 xs

/-- Scipy `lfilter(b, a, x, zi)` (output only), for coefficients already
normalised so that `a[0] = 1`, as produced by `butter` and used by `filtfilt`. -/
def lfilter (b a zi x : List ℚ) : List ℚ :=
  lfilter_from b a (max a.length b.length - 1) zi x

/-- Scipy `lfilter_zi(b, a)` specialised to an FIR filter (`a = [1]`), the only
case whose exact value the development needs: the steady state of the direct
form II transposed state for a unit step input is the vector of suffix sums
`zi[i] = sum(b[i+1:])`. -/
def lfilter_zi_fir (b : List ℚ) : List ℚ :=
  (List.range (b.length - 1)).map fun i => (b.drop (i + 1)).sum

/-- Scipy `odd_ext(x, e)`: odd extension of the signal by `e` samples at both
ends, `2 x[0] - x[e-k]` on the left and `2 x[-1] - x[-2-k]` on the right. -/
def odd_ext (x : List ℚ) (e : ℕ) : List ℚ :=
  ((List.range e).map fun k => 2 * x.headD 0 - x.getD (e - k) 0)
    ++ x ++
    ((List.range e).map fun k => 2 * x.getLastD 0 - x.getD (x.length - 2 - k) 0)

/-- Python slice `l[e:-e]` as used on NumPy arrays in the source. -/
def py_slice_trim (e : ℕ) (l : List ℚ) : List ℚ := (l.drop e).take (l.length - 2 * e)

/-- Scipy `filtfilt(b, a, x)` with its defaults (`padtype="odd"`,
`padlen = 3 * max(len(a), len(b))`, `method="pad"`): raise `ValueError` when
the signal is not longer than the pad length; otherwise oddly extend the
signal, run `lfilter` forward from initial state `zi * ext[0]`, run it again
backward from `zi * y[-1]`, and slice the padding off.  The initial state
vector `zi = lfilter_zi(b, a)` is irrational for Butterworth coefficients, so
it is taken as a parameter; `lfilter_zi_fir` instantiates it for `a = [1]`. -/
def filtfilt (b a zi x : List ℚ) : Except String (List ℚ) :=
  let ntaps := max a.length b.length
  let edge := 3 * ntaps
  if x.length ≤ edge then Except.error errPadlen
  else
    let ext := odd_ext x edge
    let y1 := lfilter b a (zi.map fun w => w * ext.headD 0) ext
    let r1 := y1.reverse
    let y2 := lfilter b a (zi.map fun w => w * r1.headD 0) r1
    Except.ok (py_slice_trim edge y2.reverse)

/-- Full discrete linear convolution, `scipy.signal.convolve` in its default
mode, as called on line 51 (dead computation). -/
def convolve (x h : List ℚ) : List ℚ :=
  (List.range (x.length + h.length - 1)).map fun k =>
    ((List.range (k + 1)).map fun j => x.getD j 0 * h.getD (k - j) 0).sum

/-- Lines 48-53 of `process_signal`: square the filtered signal, build the
moving-average kernel `b = ones(n)/n`, compute the causal convolution (whose
result is immediately overwritten, exactly as in the source) and return the
zero-phase `filtfilt(b, ones(1), squared_signal)`. -/
def envelope_stage (average_filter_sample_length : ℕ) (filtered_signal : List ℚ) :
    Except String (List ℚ) :=
  let squared_signal := filtered_signal.map fun s => s ^ 2
  let b := List.replicate average_filter_sample_length
    ((1 : ℚ) / (average_filter_sample_length : ℚ))
  let averaged_signal := convolve squared_signal b
  let averaged_signal := filtfilt b [1] (lfilter_zi_fir b) squared_signal
  averaged_signal

/-- The envelope stage with the dead causal convolution of line 51 removed. -/
def envelope_stage_simplified (average_filter_sample_length : ℕ)
    (filtered_signal : List ℚ) : Except String (List ℚ) :=
  let squared_signal := filtered_signal.map fun s => s ^ 2
  let b := List.replicate average_filter_sample_length
    ((1 : ℚ) / (average_filter_sample_length : ℚ))
  filtfilt b [1] (lfilter_zi_fir b) squared_signal

/-- Spec-side smoothing (spec section 4.3): a moving-average filter of window
length `w` applied with zero phase (forward plus backward), which is scipy's
`filtfilt` with kernel `ones(w)/w` and denominator `[1]`. -/
def zero_phase_moving_average (w : ℕ) (sig : List ℚ) : Except String (List ℚ) :=
  let b := List.replicate w ((1 : ℚ) / (w : ℚ))
  filtfilt b [1] (lfilter_zi_fir b) sig

/-- Source `filter_all` (lines 38-43): a zero-phase highpass Butterworth pass
followed by a zero-phase lowpass pass.  The Butterworth coefficients returned
by `scipy.signal.butter` (and their `lfilter_zi` vectors) are irrational, so
they are parameters of the model; the order-5 design of the source yields
coefficient lists of length 6, which is all the raise condition depends on. -/
def filter_all (bh ah zih bl al zil : List ℚ) (data : List ℚ) :
    Except String (List ℚ) := do
  let highpassed_signal ← filtfilt bh ah zih data
  filtfilt bl al zil highpassed_signal

/-- Source `process_signal` (lines 46-53): bandpass filter, then the envelope
stage (square and zero-phase moving average). -/
def process_signal (bh ah zih bl al zil : List ℚ) (average_filter_sample_length : ℕ)
    (y : List ℚ) : Except String (List ℚ) := do
  let filtered_signal ← filter_all bh ah zih bl al zil y
  envelope_stage average_filter_sample_length filtered_signal

/-- Spec-side SDNN (spec section 4.6): the population standard deviation of a
series, written directly over the reals. -/
noncomputable def pop_std_spec (v : List ℝ) : ℝ :=
  Real.sqrt ((v.map fun x => (x - v.sum / v.length) ^ 2).sum / v.length)

/-- Spec-side RMSSD (spec section 4.6): the square root of the mean of the
squared successive differences of a series, written directly over the reals. -/
noncomputable def rmssd_spec (v : List ℝ) : ℝ :=
  Real.sqrt (((List.zipWith (fun a b => a - b) v.tail v).map fun d => d ^ 2).sum /
    (List.zipWith (fun a b => a - b) v.tail v).length)

/-- Abstraction of the video source consumed by the handler: whether
`cv2.VideoCapture` opens it, the reported fps and frame count, and the
per-frame R-channel ROI averages the decode loop of lines 125-142 produces
(the G and B averages are dead downstream and omitted). -/
structure Video where
  opened : Bool
  fps : ℚ
  frameCount : ℕ
  rSamples : List ℚ

/-- The two response shapes of the handler: the structured failure object
`{error: string}` and the success dictionary of lines 155-160. -/
inductive ApiResponse where
  | failure (error : String)
  | success (r_avg : List ℚ) (bpm : ℚ) (hrv : HRVMetrics) (stress : Option ℚ)

/-- Source `get_beats_per_min` (lines 109-162): unopenable source and zero
frame count return failure objects; `1.0 / fps` raises when fps is zero; the
R signal is trimmed by `R[100:-100]`, processed, and fed to
`give_bpm_and_hrv`.  There is no exception handler, so any `Except.error`
from the pipeline escapes the handler. -/
noncomputable def get_beats_per_min (bh ah zih bl al zil : List ℚ) (cap : StressCap)
    (v : Video) : Except String ApiResponse :=
  if !v.opened then Except.ok (ApiResponse.failure msgNotOpened)
  else if v.frameCount = 0 then Except.ok (ApiResponse.failure msgNoFrames)
  else if v.fps = 0 then Except.error errFloatDivZero
  else do
    let time_bw_frame := 1 / v.fps
    let R := py_slice_trim 100 v.rSamples
    let r_averaged ← process_signal bh ah zih bl al zil 7 R
    let bpm_and_hrv ← give_bpm_and_hrv cap r_averaged time_bw_frame
    Except.ok (ApiResponse.success r_averaged bpm_and_hrv.bpm bpm_and_hrv.hrv
      bpm_and_hrv.stress)

/-! ### Lemmas about the plateau scan and the local-maxima scan -/

theorem plateau_end_ge (x : List ℚ) (v : ℚ) :
    ∀ fuel j, j ≤ plateau_end x v fuel j := by
  intro fuel
  induction fuel with
  | zero => intro j; exact le_refl j
  | succ n ih =>
    intro j
    rw [plateau_end]
    split
    · exact le_trans (Nat.le_succ j) (ih (j + 1))
    · exact le_refl j

theorem plateau_end_lt (x : List ℚ) (v : ℚ) :
    ∀ fuel j, j < x.length → plateau_end x v fuel j < x.length := by
  intro fuel
  induction fuel with
  | zero => intro j hj; exact hj
  | succ n ih =>
    intro j hj
    rw [plateau_end]
    split
    next hc => exact ih (j + 1) (by omega)
    next => exact hj

theorem plateau_end_stop (x : List ℚ) (v : ℚ) (fuel j : ℕ)
    (h : x.getD j 0 ≠ v) : plateau_end x v fuel j = j := by
  cases fuel with
  | zero => rfl
  | succ n =>
    rw [plateau_end, if_neg]
    intro hc
    exact h hc.2

theorem local_maxima_from_mem (x : List ℚ) :
    ∀ fuel i p, p ∈ local_maxima_from x fuel i → i ≤ p ∧ p + 1 < x.length := by
  intro fuel
  induction fuel with
  | zero => intro i p hp; simp [local_maxima_from] at hp
  | succ n ih =>
    intro i p hp
    rw [local_maxima_from] at hp
    by_cases h1 : i + 1 < x.length
    · rw [if_pos h1] at hp
      by_cases h2 : x.getD (i - 1) 0 < x.getD i 0
      · rw [if_pos h2] at hp
        by_cases h3 : x.getD (plateau_end x (x.getD i 0) x.length (i + 1)) 0 < x.getD i 0
        · rw [if_pos h3] at hp
          have hge := plateau_end_ge x (x.getD i 0) x.length (i + 1)
          have hlt := plateau_end_lt x (x.getD i 0) x.length (i + 1) h1
          rcases List.mem_cons.mp hp with rfl | hmem
          · omega
          · have := ih _ _ hmem
            omega
        · rw [if_neg h3] at hp
          have := ih _ _ hp
          omega
      · rw [if_neg h2] at hp
        have := ih _ _ hp
        omega
    · rw [if_neg h1] at hp
      simp at hp

theorem local_maxima_from_pairwise (x : List ℚ) :
    ∀ fuel i, List.Pairwise (· < ·) (local_maxima_from x fuel i) := by
  intro fuel
  induction fuel with
  | zero => intro i; simp [local_maxima_from]
  | succ n ih =>
    intro i
    rw [local_maxima_from]
    by_cases h1 : i + 1 < x.length
    · rw [if_pos h1]
      by_cases h2 : x.getD (i - 1) 0 < x.getD i 0
      · rw [if_pos h2]
        by_cases h3 : x.getD (plateau_end x (x.getD i 0) x.length (i + 1)) 0 < x.getD i 0
        · rw [if_pos h3]
          refine List.pairwise_cons.mpr ⟨?_, ih _⟩
          intro q hq
          have hq2 := local_maxima_from_mem x n _ q hq
          have hge := plateau_end_ge x (x.getD i 0) x.length (i + 1)
          omega
        · rw [if_neg h3]; exact ih _
      · rw [if_neg h2]; exact ih _
    · rw [if_neg h1]; exact List.Pairwise.nil

theorem local_maxima_from_mem_of_ne (x : List ℚ)
    (had : ∀ j, j + 1 < x.length → x.getD j 0 ≠ x.getD (j + 1) 0) :
    ∀ fuel i, 1 ≤ i → x.length ≤ fuel + i → ∀ p,
      (p ∈ local_maxima_from x fuel i ↔
        i ≤ p ∧ p + 1 < x.length ∧ x.getD (p - 1) 0 < x.getD p 0 ∧
          x.getD (p + 1) 0 < x.getD p 0) := by
  intro fuel
  induction fuel with
  | zero =>
    intro i h1 hf p
    simp only [local_maxima_from, List.not_mem_nil, false_iff]
    rintro ⟨hip, hpl, -, -⟩
    omega
  | succ n ih =>
    intro i h1 hf p
    rw [local_maxima_from]
    by_cases hc1 : i + 1 < x.length
    · rw [if_pos hc1]
      have hne : x.getD (i + 1) 0 ≠ x.getD i 0 := fun h => (had i hc1) h.symm
      have hia : plateau_end x (x.getD i 0) x.length (i + 1) = i + 1 :=
        plateau_end_stop x _ _ _ hne
      rw [hia]
      by_cases hc2 : x.getD (i - 1) 0 < x.getD i 0
      · rw [if_pos hc2]
        by_cases hc3 : x.getD (i + 1) 0 < x.getD i 0
        · rw [if_pos hc3]
          have hmid : (i + (i + 1) - 1) / 2 = i := by omega
          rw [hmid, List.mem_cons, ih (i + 2) (by omega) (by omega) p]
          constructor
          · rintro (rfl | ⟨h2p, hpl, ha, hb⟩)
            · exact ⟨le_refl p, hc1, hc2, hc3⟩
            · exact ⟨by omega, hpl, ha, hb⟩
          · rintro ⟨hip, hpl, ha, hb⟩
            rcases Nat.lt_or_ge p (i + 2) with hlt | hge
            · by_cases hpi : p = i
              · exact Or.inl hpi
              · exfalso
                have hpi1 : p = i + 1 := by omega
                subst hpi1
                simp only [Nat.add_sub_cancel] at ha
                exact absurd ha (not_lt_of_gt hc3)
            · exact Or.inr ⟨hge, hpl, ha, hb⟩
        · rw [if_neg hc3, ih (i + 1) (by omega) (by omega) p]
          constructor
          · rintro ⟨hip, hpl, ha, hb⟩
            exact ⟨by omega, hpl, ha, hb⟩
          · rintro ⟨hip, hpl, ha, hb⟩
            refine ⟨?_, hpl, ha, hb⟩
            rcases Nat.eq_or_lt_of_le hip with rfl | hlt
            · exact absurd hb hc3
            · omega
      · rw [if_neg hc2, ih (i + 1) (by omega) (by omega) p]
        constructor
        · rintro ⟨hip, hpl, ha, hb⟩
          exact ⟨by omega, hpl, ha, hb⟩
        · rintro ⟨hip, hpl, ha, hb⟩
          refine ⟨?_, hpl, ha, hb⟩
          rcases Nat.eq_or_lt_of_le hip with rfl | hlt
          · exfalso
            exact hc2 ha
          · omega
    · rw [if_neg hc1]
      simp only [List.not_mem_nil, false_iff]
      rintro ⟨hip, hpl, -, -⟩
      omega

/-! ### Claim C4: peak detector versus strict local maxima -/

/-- Claim C4, counterexample: on the plateau signal `[0, 1, 1, 0]` the peak
detector (scipy `find_peaks` with the adaptive threshold) returns the plateau
midpoint `1`, which is not a strict local maximum, so the detector does not
return exactly the strict local maxima at or above the threshold. -/
theorem c4_counterexample :
    peak_detector [0, 1, 1, 0] = [1] ∧
      strict_peaks_spec [0, 1, 1, 0] (r_min_peak [0, 1, 1, 0]) = [] ∧
      peak_detector [0, 1, 1, 0] ≠
        strict_peaks_spec [0, 1, 1, 0] (r_min_peak [0, 1, 1, 0]) := by
  refine ⟨?_, ?_, ?_⟩ <;> with_unfolding_all decide

/-- Claim C4, amended: for every envelope signal in which no two adjacent
samples are equal, the peak detector returns, in ascending index order,
exactly the samples that are strict local maxima with value greater than or
equal to the threshold; in particular a strict local maximum exactly equal to
the threshold is kept (the filter keeps `h ≤ x[p]`) and one below is not. -/
theorem c4_peak_detector_strict (x : List ℚ) (h : ℚ)
    (had : ∀ j < x.length - 1, x.getD j 0 ≠ x.getD (j + 1) 0) :
    find_peaks_h x h = strict_peaks_spec x h := by
  have had2 : ∀ j, j + 1 < x.length → x.getD j 0 ≠ x.getD (j + 1) 0 :=
    fun j hj => had j (by omega)
  have hmemiff := local_maxima_from_mem_of_ne x had2 x.length 1 (le_refl 1) (by omega)
  have hmem : ∀ p, p ∈ find_peaks_h x h ↔ p ∈ strict_peaks_spec x h := by
    intro p
    unfold find_peaks_h strict_peaks_spec local_maxima
    rw [List.mem_filter, List.mem_filter, hmemiff p]
    simp only [decide_eq_true_eq, List.mem_range]
    constructor
    · rintro ⟨⟨h1p, hpl, ha, hb⟩, h5⟩
      exact ⟨by omega, by omega, hpl, ha, hb, h5⟩
    · rintro ⟨hpn, h0, hpl, ha, hb, h5⟩
      exact ⟨⟨by omega, hpl, ha, hb⟩, h5⟩
  have hp1 : List.Pairwise (· < ·) (find_peaks_h x h) :=
    List.Pairwise.filter _ (local_maxima_from_pairwise x x.length 1)
  have hp2 : List.Pairwise (· < ·) (strict_peaks_spec x h) :=
    List.Pairwise.filter _ (List.pairwise_lt_range x.length)
  exact List.eq_of_perm_of_sorted
    ((List.perm_ext_iff_of_nodup (hp1.imp ne_of_lt) (hp2.imp ne_of_lt)).mpr hmem)
    (hp1.imp le_of_lt) (hp2.imp le_of_lt)

/-- Claim C4, witness: on `[0, 2, 1, 3, 0]` (no equal neighbours) the detector
finds `[1, 3]` and agrees with the strict-local-maxima specification. -/
theorem c4_witness :
    (∀ j < ([0, 2, 1, 3, 0] : List ℚ).length - 1,
      ([0, 2, 1, 3, 0] : List ℚ).getD j 0 ≠ ([0, 2, 1, 3, 0] : List ℚ).getD (j + 1) 0) ∧
    peak_detector [0, 2, 1, 3, 0] = [1, 3] ∧
    find_peaks_h [0, 2, 1, 3, 0] (r_min_peak [0, 2, 1, 3, 0]) =
      strict_peaks_spec [0, 2, 1, 3, 0] (r_min_peak [0, 2, 1, 3, 0]) :=
  ⟨by decide, by with_unfolding_all decide,
    c4_peak_detector_strict [0, 2, 1, 3, 0] (r_min_peak [0, 2, 1, 3, 0]) (by decide)⟩

/-! ### Claim C9: peak indices lie strictly between the endpoints -/

/-- Claim C9: every index the peak detector returns satisfies
`0 < index < length - 1` (the first and last samples are never peaks), and the
returned indices are strictly increasing. -/
theorem c9_peak_index_bounds (x : List ℚ) :
    (∀ p ∈ peak_detector x, 0 < p ∧ p + 1 < x.length) ∧
      List.Pairwise (· < ·) (peak_detector x) := by
  constructor
  · intro p hp
    have hp2 : p ∈ local_maxima x := List.mem_of_mem_filter hp
    have hb := local_maxima_from_mem x x.length 1 p hp2
    exact ⟨by omega, hb.2⟩
  · exact List.Pairwise.filter _ (local_maxima_from_pairwise x x.length 1)

/-- Claim C9, witness: on `[0, 1, 0]` the single returned peak `1` is strictly
inside the index range. -/
theorem c9_witness :
    peak_detector [0, 1, 0] = [1] ∧
      (∀ p ∈ peak_detector [0, 1, 0], 0 < p ∧ p + 1 < ([0, 1, 0] : List ℚ).length) :=
  ⟨by with_unfolding_all decide, (c9_peak_index_bounds [0, 1, 0]).1⟩

/-! ### Claim C1: degenerate result on fewer than 2 peaks -/

/-- Claim C1, counterexample: on the empty envelope signal the detector finds
fewer than 2 peaks, yet the pipeline raises (`min(averaged)` throws
`ValueError`) instead of returning the degenerate result. -/
theorem c1_counterexample :
    (peak_detector ([] : List ℚ)).length < 2 ∧
      give_bpm_and_hrv (fun _ _ => Except.ok none) [] 1 = Except.error errMinEmpty :=
  ⟨by decide, rfl⟩

/-- Claim C1, amended: for every non-empty envelope signal in which the peak
detector finds fewer than 2 peaks, the pipeline raises no exception and
returns exactly the degenerate result with BPM 0, all HRV metrics 0 and a
null stress score. -/
theorem c1_degenerate_result (cap : StressCap) (averaged : List ℚ) (t : ℚ)
    (hne : averaged ≠ []) (hpk : (peak_detector averaged).length < 2) :
    give_bpm_and_hrv cap averaged t =
      Except.ok ⟨0, ⟨some 0, some 0, 0⟩, none⟩ := by
  have hle : (peak_detector averaged).length ≤ 1 := by omega
  simp [give_bpm_and_hrv, hne, hle]

/-- Claim C1, witness: the flat signal `[0, 0, 0]` has no peaks and yields the
degenerate result. -/
theorem c1_witness :
    ([0, 0, 0] : List ℚ) ≠ [] ∧ (peak_detector [0, 0, 0]).length < 2 ∧
      give_bpm_and_hrv (fun _ _ => Except.ok none) [0, 0, 0] 1 =
        Except.ok ⟨0, ⟨some 0, some 0, 0⟩, none⟩ :=
  ⟨by decide, by decide,
    c1_degenerate_result (fun _ _ => Except.ok none) [0, 0, 0] 1 (by decide) (by decide)⟩

/-! ### Claim C3: interval analyzer -/

/-- Claim C3: for every peak set with at least 2 strictly increasing indices
and positive sample interval, the RR series has length `len(PeakSet) - 1`,
entry `i` equals `(PeakSet[i+1] - PeakSet[i]) * sample_interval`, and the BPM
is `60 / mean(RRIntervalSeries)`. -/
theorem c3_interval_analyzer (peaks : List ℕ) (t : ℚ) (h2 : 2 ≤ peaks.length)
    (hinc : List.Pairwise (· < ·) peaks) (ht : 0 < t) :
    (rr_intervals_of peaks t).length = peaks.length - 1 ∧
      (∀ i, i + 1 < peaks.length →
        (rr_intervals_of peaks t).getD i 0 =
          ((peaks.getD (i + 1) 0 : ℚ) - (peaks.getD i 0 : ℚ)) * t) ∧
      ∃ mu, np_mean (rr_intervals_of peaks t) = some mu ∧
        bpm_of (rr_intervals_of peaks t) = 60 / mu := by
  refine ⟨by simp [rr_intervals_of], ?_, ?_⟩
  · intro i hi
    have hlen : i < (rr_intervals_of peaks t).length := by
      simp only [rr_intervals_of, List.length_map, List.length_range]
      omega
    rw [List.getD_eq_getElem _ _ hlen]
    simp [rr_intervals_of]
  · have hlen0 : (rr_intervals_of peaks t).length ≠ 0 := by
      simp only [rr_intervals_of, List.length_map, List.length_range]
      omega
    refine ⟨(rr_intervals_of peaks t).sum / ((rr_intervals_of peaks t).length : ℚ),
      ?_, rfl⟩
    unfold np_mean
    rw [if_neg hlen0]

/-- Claim C3, witness: peaks `[2, 5, 9]` with sample interval `1/30` give the
RR series `[1/10, 2/15]` and the stated identities. -/
theorem c3_witness :
    2 ≤ ([2, 5, 9] : List ℕ).length ∧
      rr_intervals_of [2, 5, 9] (1 / 30) = [1 / 10, 2 / 15] ∧
      ((rr_intervals_of [2, 5, 9] (1 / 30)).length = ([2, 5, 9] : List ℕ).length - 1 ∧
        (∀ i, i + 1 < ([2, 5, 9] : List ℕ).length →
          (rr_intervals_of [2, 5, 9] (1 / 30)).getD i 0 =
            ((([2, 5, 9] : List ℕ).getD (i + 1) 0 : ℚ) -
              (([2, 5, 9] : List ℕ).getD i 0 : ℚ)) * (1 / 30)) ∧
        ∃ mu, np_mean (rr_intervals_of [2, 5, 9] (1 / 30)) = some mu ∧
          bpm_of (rr_intervals_of [2, 5, 9] (1 / 30)) = 60 / mu) :=
  ⟨by decide, by with_unfolding_all decide,
    c3_interval_analyzer [2, 5, 9] (1 / 30) (by decide) (by decide)
      (by with_unfolding_all decide)⟩

/-! ### Claim C10: positivity of RR intervals and BPM -/

/-- Claim C10: with a positive sample interval, whenever at least 2 peaks are
detected every computed RR interval and the computed BPM are strictly
positive; consequently any returned result has BPM 0 exactly when fewer than
2 peaks were detected. -/
theorem c10_bpm_positive (cap : StressCap) (env : List ℚ) (t : ℚ) (ht : 0 < t) :
    (2 ≤ (peak_detector env).length →
      (∀ r ∈ rr_intervals_of (peak_detector env) t, 0 < r) ∧
        0 < bpm_of (rr_intervals_of (peak_detector env) t)) ∧
      (∀ res, give_bpm_and_hrv cap env t = Except.ok res →
        (res.bpm = 0 ↔ (peak_detector env).length < 2)) := by
  have hpair : List.Pairwise (· < ·) (peak_detector env) :=
    List.Pairwise.filter _ (local_maxima_from_pairwise env env.length 1)
  have hpos : 2 ≤ (peak_detector env).length →
      ∀ r ∈ rr_intervals_of (peak_detector env) t, 0 < r := by
    intro h2 r hr
    unfold rr_intervals_of at hr
    rw [List.mem_map] at hr
    obtain ⟨i, hi, rfl⟩ := hr
    rw [List.mem_range] at hi
    have hlt : (peak_detector env).getD i 0 < (peak_detector env).getD (i + 1) 0 := by
      rw [List.getD_eq_getElem _ _ (by omega), List.getD_eq_getElem _ _ (by omega)]
      exact List.pairwise_iff_getElem.mp hpair i (i + 1) (by omega) (by omega) (by omega)
    have hltq : ((peak_detector env).getD i 0 : ℚ) <
        ((peak_detector env).getD (i + 1) 0 : ℚ) := by exact_mod_cast hlt
    have hdiff : 0 < ((peak_detector env).getD (i + 1) 0 : ℚ) -
        ((peak_detector env).getD i 0 : ℚ) := by linarith
    exact mul_pos hdiff ht
  have hbpm : 2 ≤ (peak_detector env).length →
      0 < bpm_of (rr_intervals_of (peak_detector env) t) := by
    intro h2
    have hlen : (rr_intervals_of (peak_detector env) t).length =
        (peak_detector env).length - 1 := by
      simp [rr_intervals_of]
    have hne : rr_intervals_of (peak_detector env) t ≠ [] := by
      rw [← List.length_pos]
      omega
    have hsum : 0 < (rr_intervals_of (peak_detector env) t).sum :=
      List.sum_pos _ (hpos h2) hne
    have hlenq : (0 : ℚ) < ((rr_intervals_of (peak_detector env) t).length : ℚ) := by
      have h0 : 0 < (rr_intervals_of (peak_detector env) t).length := by omega
      exact_mod_cast h0
    unfold bpm_of
    exact div_pos (by norm_num) (div_pos hsum hlenq)
  refine ⟨fun h2 => ⟨hpos h2, hbpm h2⟩, ?_⟩
  intro res hres
  by_cases hne : env = []
  · subst hne
    simp [give_bpm_and_hrv] at hres
  · by_cases hle : (peak_detector env).length ≤ 1
    · have hdeg : give_bpm_and_hrv cap env t =
          Except.ok ⟨0, ⟨some 0, some 0, 0⟩, none⟩ := by
        simp [give_bpm_and_hrv, hne, hle]
      rw [hdeg] at hres
      have hres2 : (⟨0, ⟨some 0, some 0, 0⟩, none⟩ : BpmResult) = res :=
        Except.ok.inj hres
      rw [← hres2]
      simp only [true_iff]
      omega
    · have h2 : 2 ≤ (peak_detector env).length := by omega
      simp only [give_bpm_and_hrv, if_neg hne, if_neg hle] at hres
      cases hh : calculate_hrv (rr_intervals_of (peak_detector env) t) with
      | error e =>
        rw [hh] at hres
        simp [Bind.bind, Except.bind] at hres
      | ok m =>
        rw [hh] at hres
        cases hs : calculate_stress_score cap (peak_detector env) (py_int (1 / t)) with
        | error e =>
          rw [hs] at hres
          simp [Bind.bind, Except.bind] at hres
        | ok s =>
          rw [hs] at hres
          simp only [Bind.bind, Except.bind, Except.ok.injEq] at hres
          have hb := hbpm h2
          rw [← hres]
          constructor
          · intro h0
            exact absurd h0.symm (ne_of_lt hb)
          · intro hlt
            omega

/-- Claim C10, witness: on `[0, 5, 0, 5, 0]` with sample interval 1 the two
peaks `[1, 3]` give positive RR intervals and BPM, and any returned result
has nonzero BPM. -/
theorem c10_witness :
    (0 : ℚ) < 1 ∧ peak_detector [0, 5, 0, 5, 0] = [1, 3] ∧
      ((2 ≤ (peak_detector [0, 5, 0, 5, 0]).length →
        (∀ r ∈ rr_intervals_of (peak_detector [0, 5, 0, 5, 0]) 1, 0 < r) ∧
          0 < bpm_of (rr_intervals_of (peak_detector [0, 5, 0, 5, 0]) 1)) ∧
        (∀ res, give_bpm_and_hrv (fun _ _ => Except.ok none) [0, 5, 0, 5, 0] 1 =
            Except.ok res →
          (res.bpm = 0 ↔ (peak_detector [0, 5, 0, 5, 0]).length < 2))) :=
  ⟨by decide, by with_unfolding_all decide,
    c10_bpm_positive (fun _ _ => Except.ok none) [0, 5, 0, 5, 0] 1 (by decide)⟩

/-! ### Claims C2 and C5: the HRV calculator -/

theorem np_mean_eq (l : List ℚ) (h : l.length ≠ 0) :
    np_mean l = some (l.sum / l.length) := by
  unfold np_mean
  rw [if_neg h]

theorem rat_cast_list_sum (l : List ℚ) :
    ((l.sum : ℚ) : ℝ) = (l.map (fun q : ℚ => (q : ℝ))).sum := by
  induction l with
  | nil => simp
  | cons a t ih => simp [ih]

theorem rat_cast_zipWith_sub (l₁ l₂ : List ℚ) :
    List.zipWith (fun a b => a - b) (l₁.map (fun q : ℚ => (q : ℝ)))
        (l₂.map (fun q : ℚ => (q : ℝ))) =
      (List.zipWith (fun a b => a - b) l₁ l₂).map (fun q : ℚ => (q : ℝ)) := by
  induction l₁ generalizing l₂ with
  | nil => simp
  | cons a t ih =>
    cases l₂ with
    | nil => simp
    | cons b s => simp [ih]

/-- Claim C2: for a series of at least 2 RR intervals, the calculator returns
SDNN equal to the population standard deviation of the millisecond intervals,
RMSSD equal to the square root of the mean squared successive difference, and
pNN50 equal to 100 times the count of absolute successive differences above
50 ms divided by the number of RR intervals. -/

theorem c2_hrv_calculator (rr : List ℚ) (h2 : 2 ≤ rr.length) :
    ∃ m, calculate_hrv rr = Except.ok m ∧
      m.sdnn = some (pop_std_spec (rr.map (fun q : ℚ => (q : ℝ) * 1000))) ∧
      m.rmssd = some (rmssd_spec (rr.map (fun q : ℚ => (q : ℝ) * 1000))) ∧
      m.pnn50 = 100 * (((np_diff (rr.map fun q => q * 1000)).countP
        fun d => decide (50 < |d|) : ℕ) : ℚ) / rr.length := by
  have hlen : (rr.map fun x => x * 1000).length = rr.length := by simp
  have hne : (rr.map fun x => x * 1000).length ≠ 0 := by omega
  have hdlen : (np_diff (rr.map fun x => x * 1000)).length = rr.length - 1 := by
    simp [np_diff]
  have hRQ : (rr.map (fun q : ℚ => (q : ℝ) * 1000)) =
      (rr.map fun x => x * 1000).map (fun q : ℚ => (q : ℝ)) := by
    rw [List.map_map]
    apply List.map_congr_left
    intro a _
    simp only [Function.comp_apply]
    push_cast
    ring
  have hcal : calculate_hrv rr = Except.ok
      ⟨np_std (rr.map fun x => x * 1000),
       (np_mean ((np_diff (rr.map fun x => x * 1000)).map fun d => d ^ 2)).map
         (fun m : ℚ => Real.sqrt (m : ℝ)),
       ((((np_diff (rr.map fun x => x * 1000)).filter
           fun d => decide (50 < |d|)).length : ℚ) /
         ((rr.map fun x => x * 1000).length : ℚ)) * 100⟩ := by
    simp only [calculate_hrv]
    rw [if_neg hne]
  refine ⟨_, hcal, ?_, ?_, ?_⟩
  · -- SDNN equals the population standard deviation over the reals
    unfold np_std
    rw [np_mean_eq _ hne, Option.some_bind, np_mean_eq _ (by simpa using hne),
      Option.map_some']
    unfold pop_std_spec
    rw [hRQ]
    push_cast
    simp only [List.map_map, List.length_map]
    congr 1
    congr 1
    congr 1
    congr 1
    apply List.map_congr_left
    intro a _
    simp only [Function.comp_apply, List.length_map]
    push_cast [List.map_map]
    try ring
  · -- RMSSD equals the root mean squared successive difference over the reals
    rw [np_mean_eq _ (by simp only [List.length_map]; omega), Option.map_some']
    unfold rmssd_spec
    rw [hRQ, ← List.map_tail, rat_cast_zipWith_sub]
    push_cast
    simp only [List.map_map, List.length_map, np_diff]
    congr 1
    congr 1
    congr 1
    congr 1
    apply List.map_congr_left
    intro a _
    simp only [Function.comp_apply]
    push_cast
    ring
  · -- pNN50
    rw [List.countP_eq_length_filter, hlen]
    ring

/-- Claim C2, witness: the spec's example series `[0.8, 0.82, 0.78, 0.85]`
seconds is accepted and satisfies all three closed-form identities. -/
theorem c2_witness :
    2 ≤ ([4 / 5, 41 / 50, 39 / 50, 17 / 20] : List ℚ).length ∧
      ∃ m, calculate_hrv [4 / 5, 41 / 50, 39 / 50, 17 / 20] = Except.ok m ∧
        m.sdnn = some (pop_std_spec (([4 / 5, 41 / 50, 39 / 50, 17 / 20] : List ℚ).map
          (fun q : ℚ => (q : ℝ) * 1000))) ∧
        m.rmssd = some (rmssd_spec (([4 / 5, 41 / 50, 39 / 50, 17 / 20] : List ℚ).map
          (fun q : ℚ => (q : ℝ) * 1000))) ∧
        m.pnn50 = 100 * (((np_diff (([4 / 5, 41 / 50, 39 / 50, 17 / 20] : List ℚ).map
            fun q => q * 1000)).countP fun d => decide (50 < |d|) : ℕ) : ℚ) /
          ([4 / 5, 41 / 50, 39 / 50, 17 / 20] : List ℚ).length :=
  ⟨by decide, c2_hrv_calculator [4 / 5, 41 / 50, 39 / 50, 17 / 20] (by decide)⟩

/-- Claim C5 is false of the code: on the empty RR series the division
`nn50 / len(rr_intervals_ms)` raises `ZeroDivisionError`, and on a singleton
series RMSSD is `sqrt(mean([]))`, NaN rather than 0 (pNN50 is 0 there, and
SDNN is 0, but the claim requires all three to be 0 with no exception). -/
theorem c5_short_series_failure :
    calculate_hrv [] = Except.error errZeroDiv ∧
      ∃ m, calculate_hrv [4 / 5] = Except.ok m ∧ m.rmssd = none ∧ m.pnn50 = 0 := by
  constructor
  · rfl
  · have h : calculate_hrv [4 / 5] = Except.ok
        ⟨np_std ([4 / 5].map fun x => x * 1000), none, 0⟩ := by
      with_unfolding_all rfl
    exact ⟨_, h, rfl, rfl⟩

/-! ### Claim C8: envelope extractor -/

theorem lfilter_from_length (b a : List ℚ) (K : ℕ) :
    ∀ z x, (lfilter_from b a K z x).length = x.length := by
  intro z x
  induction x generalizing z with
  | nil => rfl
  | cons xn xs ih => simp [lfilter_from, ih]

theorem lfilter_length (b a zi x : List ℚ) : (lfilter b a zi x).length = x.length :=
  lfilter_from_length b a _ zi x

theorem odd_ext_length (x : List ℚ) (e : ℕ) :
    (odd_ext x e).length = x.length + 2 * e := by
  simp [odd_ext]
  omega

theorem filtfilt_length (b a zi x : List ℚ)
    (h : ¬ x.length ≤ 3 * max a.length b.length) :
    ∃ y, filtfilt b a zi x = Except.ok y ∧ y.length = x.length := by
  unfold filtfilt
  rw [if_neg h]
  refine ⟨_, rfl, ?_⟩
  simp [py_slice_trim, lfilter_length, odd_ext_length]
  omega

theorem c8_envelope_stage (fs : List ℚ) :
    envelope_stage 7 fs = envelope_stage_simplified 7 fs ∧
      envelope_stage 7 fs = zero_phase_moving_average 7 (fs.map fun s => s ^ 2) ∧
      (22 ≤ fs.length → ∃ e, envelope_stage 7 fs = Except.ok e ∧
        e.length = fs.length) := by
  refine ⟨rfl, rfl, ?_⟩
  intro h22
  have hnot : ¬ (fs.map fun s => s ^ 2).length ≤
      3 * max ([(1 : ℚ)].length) (List.replicate 7 ((1 : ℚ) / (7 : ℕ))).length := by
    simp
    omega
  obtain ⟨e, he, hlen⟩ := filtfilt_length (List.replicate 7 ((1 : ℚ) / (7 : ℕ))) [1]
    (lfilter_zi_fir (List.replicate 7 ((1 : ℚ) / (7 : ℕ)))) (fs.map fun s => s ^ 2) hnot
  refine ⟨e, ?_, ?_⟩
  · exact (show envelope_stage 7 fs = filtfilt (List.replicate 7 ((1 : ℚ) / (7 : ℕ)))
      [1] (lfilter_zi_fir (List.replicate 7 ((1 : ℚ) / (7 : ℕ))))
      (fs.map fun s => s ^ 2) from rfl).trans he
  · rw [hlen]
    simp

/-- Claim C8, counterexample: on the one-sample filtered signal `[1]` the
envelope stage does not produce an output of equal length: the smoothing
`filtfilt` raises `ValueError` because the signal is not longer than the pad
length 21. -/
theorem c8_counterexample : envelope_stage 7 [1] = Except.error errPadlen := by
  with_unfolding_all rfl

set_option maxRecDepth 4000 in
/-- Claim C8, witness: on 22 zero samples the envelope stage succeeds, equals
its simplified form and a zero-phase moving average of the squared signal,
and preserves the length. -/
theorem c8_witness :
    22 ≤ (List.replicate 22 (0 : ℚ)).length ∧
      envelope_stage 7 (List.replicate 22 (0 : ℚ)) =
        envelope_stage_simplified 7 (List.replicate 22 (0 : ℚ)) ∧
      envelope_stage 7 (List.replicate 22 (0 : ℚ)) =
        Except.ok (List.replicate 22 (0 : ℚ)) ∧
      (∃ e, envelope_stage 7 (List.replicate 22 (0 : ℚ)) = Except.ok e ∧
        e.length = (List.replicate 22 (0 : ℚ)).length) :=
  ⟨by decide, (c8_envelope_stage (List.replicate 22 (0 : ℚ))).1,
    by with_unfolding_all rfl,
    (c8_envelope_stage (List.replicate 22 (0 : ℚ))).2.2 (by decide)⟩

/-! ### Claim C7: stress estimator -/

/-- Claim C7, counterexample: when the external capability raises, the
exception propagates out of `calculate_stress_score` (the source has no
try/except around `nk.hrv`), so the request does not get a null stress
score. -/
theorem c7_counterexample :
    calculate_stress_score (fun _ _ => Except.error "neurokit failure") [1, 3] 30 =
        Except.error "neurokit failure" ∧
      calculate_stress_score (fun _ _ => Except.error "neurokit failure") [1, 3] 30 ≠
        Except.ok none := by
  have h1 : calculate_stress_score (fun _ _ => Except.error "neurokit failure")
      [1, 3] 30 = Except.error "neurokit failure" := rfl
  refine ⟨h1, ?_⟩
  rw [h1]
  simp

/-- Claim C7, amended: for every non-empty peak set whose indices do not
exceed its last element, the stress estimator builds the binary pulse train
of length `last_peak_index + 1` with value 1 exactly at the peak indices,
passes it to the external capability, and returns exactly what the
capability produces; in particular it returns null when the capability
produces no usable metric.  An error raised by the capability, however,
propagates instead of being converted to null. -/
theorem c7_stress_estimator (cap : StressCap) (peaks : List ℕ) (sr : ℤ) (last : ℕ)
    (hl : peaks.getLast? = some last) (hb : ∀ p ∈ peaks, p ≤ last) :
    ((List.range (last + 1)).map fun i => if i ∈ peaks then (1 : ℚ) else 0).length
        = last + 1 ∧
      (∀ i, i < last + 1 →
        ((List.range (last + 1)).map fun i =>
          if i ∈ peaks then (1 : ℚ) else 0).getD i 0
            = (if i ∈ peaks then (1 : ℚ) else 0)) ∧
      calculate_stress_score cap peaks sr =
        cap ((List.range (last + 1)).map fun i => if i ∈ peaks then (1 : ℚ) else 0) sr ∧
      (cap ((List.range (last + 1)).map fun i => if i ∈ peaks then (1 : ℚ) else 0) sr =
          Except.ok none →
        calculate_stress_score cap peaks sr = Except.ok none) := by
  have hall : (peaks.all fun p => decide (p ≤ last)) = true := by
    rw [List.all_eq_true]
    intro p hp
    simpa using hb p hp
  have hcss : calculate_stress_score cap peaks sr =
      cap ((List.range (last + 1)).map fun i => if i ∈ peaks then (1 : ℚ) else 0) sr := by
    unfold calculate_stress_score
    rw [hl]
    simp only [hall, if_true]
  refine ⟨by simp, ?_, hcss, fun hc => hcss.trans hc⟩
  intro i hi
  rw [List.getD_eq_getElem _ _ (by simpa using hi)]
  simp

/-- Claim C7, witness: peaks `[1, 3]` give the pulse train `[0, 1, 0, 1]`, and
with a capability returning no metric the stress score is null. -/
theorem c7_witness :
    ([1, 3] : List ℕ).getLast? = some 3 ∧ (∀ p ∈ ([1, 3] : List ℕ), p ≤ 3) ∧
      ((List.range (3 + 1)).map fun i => if i ∈ ([1, 3] : List ℕ) then (1 : ℚ) else 0) =
        [0, 1, 0, 1] ∧
      calculate_stress_score (fun _ _ => Except.ok none) [1, 3] 30 = Except.ok none :=
  ⟨by decide, by decide, by decide,
    (c7_stress_estimator (fun _ _ => Except.ok none) [1, 3] 30 3 (by decide)
      (by decide)).2.2.2 rfl⟩

/-! ### Claim C6: handler error propagation -/

set_option maxRecDepth 8000 in
/-- Claim C6 is false of the code in its third case: the unopenable-source and
zero-frames conditions are returned as structured failure objects, but a
trimmed color signal too short for stable filtering is not caught anywhere:
scipy's `ValueError` escapes the handler.  The concrete failing video is
openable, reports 30 fps and 150 frames, so the trimmed R signal
`R[100:-100]` is empty and the highpass `filtfilt` raises.  The Butterworth
coefficient and initial-state parameters are the length-6 and length-5 lists
an order-5 `butter` design produces; only their lengths matter here. -/
theorem c6_handler_errors :
    get_beats_per_min [1, 0, 0, 0, 0, 0] [1, 0, 0, 0, 0, 0] [0, 0, 0, 0, 0]
        [1, 0, 0, 0, 0, 0] [1, 0, 0, 0, 0, 0] [0, 0, 0, 0, 0]
        (fun _ _ => Except.ok none) ⟨false, 30, 150, List.replicate 150 0⟩ =
      Except.ok (ApiResponse.failure msgNotOpened) ∧
    get_beats_per_min [1, 0, 0, 0, 0, 0] [1, 0, 0, 0, 0, 0] [0, 0, 0, 0, 0]
        [1, 0, 0, 0, 0, 0] [1, 0, 0, 0, 0, 0] [0, 0, 0, 0, 0]
        (fun _ _ => Except.ok none) ⟨true, 30, 0, []⟩ =
      Except.ok (ApiResponse.failure msgNoFrames) ∧
    get_beats_per_min [1, 0, 0, 0, 0, 0] [1, 0, 0, 0, 0, 0] [0, 0, 0, 0, 0]
        [1, 0, 0, 0, 0, 0] [1, 0, 0, 0, 0, 0] [0, 0, 0, 0, 0]
        (fun _ _ => Except.ok none) ⟨true, 30, 150, List.replicate 150 0⟩ =
      Except.error errPadlen := by
  refine ⟨rfl, rfl, ?_⟩
  with_unfolding_all rfl
